import Mathlib

/-!
Verification of the voice-authenticity pipeline:
feature extraction (`extract_features.py`), the explanation engine
(`explanation.py`), the language heuristic (`detect_language.py`),
the classifier wrapper (`voice_classifier.py`) and the audio
normalizer (`preprocess.py` / `load_audio`).

Python floats are modelled by `PyVal` (a finite rational, NaN, +inf or
-inf) with Python's comparison semantics (every comparison against NaN
is false).  Python dicts of features are modelled as association lists
with first-match lookup, so `dict.update` prepends the new entries.
-/

namespace VoiceAuth

/-- A Python float value: finite, NaN, +inf or -inf. -/
inductive PyVal where
  | finite (q : ℚ)
  | nan
  | inf
  | ninf
deriving DecidableEq

/-- Python `math.isnan` / `np.isnan`. -/
def PyVal.isnan : PyVal → Bool
  | .nan => true
  | _ => false

/-- Python `np.isinf` (true on both infinities). -/
def PyVal.isinf : PyVal → Bool
  | .inf => true
  | .ninf => true
  | _ => false

/-- `np.isfinite`: neither NaN nor infinite. -/
def PyVal.isFinite (v : PyVal) : Bool :=
  !(v.isnan || v.isinf)

/-- Python `a < b` on floats: any comparison involving NaN is false. -/
def PyVal.lt : PyVal → PyVal → Bool
  | .finite a, .finite b => a < b
  | .finite _, .inf => true
  | .ninf, .finite _ => true
  | .ninf, .inf => true
  | _, _ => false

/-- Python `a <= b` on floats: any comparison involving NaN is false. -/
def PyVal.le : PyVal → PyVal → Bool
  | .finite a, .finite b => a ≤ b
  | .finite _, .inf => true
  | .ninf, .finite _ => true
  | .ninf, .inf => true
  | .ninf, .ninf => true
  | .inf, .inf => true
  | _, _ => false

/-- Python `a > b` on floats. -/
def PyVal.gt (a b : PyVal) : Bool := PyVal.lt b a

/-- A feature dictionary: string keys to Python float values
(`dict` modelled as an association list, first match wins on lookup). -/
abbrev FeatureMap := List (String × PyVal)

/-- Python `features.get(k, 0)`. -/
def fget (features : FeatureMap) (k : String) : PyVal :=
  match List.lookup k features with
  | some v => v
  | none => .finite 0

/-- Python `d.update(upd)` for dicts modelled as association lists with
first-match lookup: the updated entries shadow the old ones. -/
def dict_update (d upd : FeatureMap) : FeatureMap := upd ++ d

/-! ### `extract_features.py` -/

/-- `default_features()` from `extract_features.py`: the safe default
feature vector used for invalid / short audio. -/
def default_features : FeatureMap :=
  [ ("pitch_mean", .finite 0),
    ("pitch_std", .finite 0),
    ("pitch_delta_std", .finite 0),
    ("centroid_mean", .finite 0),
    ("centroid_std", .finite 0),
    ("rolloff_std", .finite 0),
    ("bandwidth_std", .finite 0),
    ("spectral_flux_std", .finite 0),
    ("energy_mean", .finite 0),
    ("energy_std", .finite 0),
    ("energy_delta_std", .finite 0),
    ("hnr", .finite 0) ]

/-- `np.max(np.abs(y))` for a non-empty waveform (0 on the empty list,
where NumPy would raise). -/
def maxAbs (y : List ℚ) : ℚ :=
  y.foldl (fun m s => max m |s|) 0

/-- The amplitude-normalization step shared by `load_audio`
(`extract_features.py`) and `load_and_preprocess` (`preprocess.py`):
`max_val = np.max(np.abs(y)); if max_val > 0: y = y / max_val`. -/
def peak_normalize (y : List ℚ) : List ℚ :=
  let max_val := maxAbs y
  if 0 < max_val then y.map (fun s => s / max_val) else y

/-- `load_audio` from `extract_features.py`, on the `audio_array` branch
(the file-path branch delegates decoding to librosa, an external
library): returns the peak-normalized waveform and the target rate. -/
def load_audio (audio_array : List ℚ) (target_sr : ℕ) : List ℚ × ℕ :=
  (peak_normalize audio_array, target_sr)

/-- `load_and_preprocess` from `preprocess.py`; the librosa decode of the
file is external, so the function is modelled on the decoded waveform.
It applies the same peak normalization. -/
def load_and_preprocess (decoded : List ℚ) (target_sr : ℕ) : List ℚ × ℕ :=
  (peak_normalize decoded, target_sr)

/-- The four feature analyzers of `extract_features.py`
(`pitch_features`, `spectral_features`, `temporal_features`,
`harmonic_noise_features`).  Their bodies are DSP code built on librosa
(an external library), so they are kept abstract: any quadruple of
functions producing feature sub-dictionaries. -/
structure Analyzers where
  pitch_features : List ℚ → ℕ → FeatureMap
  spectral_features : List ℚ → ℕ → FeatureMap
  temporal_features : List ℚ → FeatureMap
  harmonic_noise_features : List ℚ → FeatureMap

/-- The final safety cleanup of `extract_features`:
`for k, v in features.items(): if np.isnan(v) or np.isinf(v): features[k] = 0.0`. -/
def sanitize (features : FeatureMap) : FeatureMap :=
  features.map (fun kv => if kv.2.isnan || kv.2.isinf then (kv.1, .finite 0) else kv)

/-- `extract_features` from `extract_features.py` on the `audio_array`
branch, parameterized by the analyzers: load and normalize the audio,
short-circuit to `default_features` when `len(y) < sr * 0.5` (written
over ℕ as `2 * len(y) < sr`, an exact equivalent), otherwise merge the
four analyzers' outputs and sanitize non-finite values. -/
def extract_features (A : Analyzers) (audio_array : List ℚ) (sample_rate : ℕ) : FeatureMap :=
  let y := (load_audio audio_array sample_rate).1
  let sr := (load_audio audio_array sample_rate).2
  if 2 * y.length < sr then
    default_features
  else
    sanitize (dict_update (dict_update (dict_update (dict_update []
      (A.pitch_features y sr)) (A.spectral_features y sr))
      (A.temporal_features y)) (A.harmonic_noise_features y))

/-! ### `explanation.py` -/

def stablePitchMsg : String := "Unnaturally stable pitch patterns detected"

def overSmoothMsg : String := "Over-smooth spectral transitions"

def reducedEnergyMsg : String := "Reduced temporal energy variation"

def cleanHarmonicMsg : String := "Excessively clean harmonic structure"

def fallbackMsg : String := "Speech characteristics resemble natural human voice patterns"

/-- The four threshold rules of `generate_explanation`, in source order:
appending to the accumulator under each condition is the concatenation
of the four conditional singletons. -/
def ruleMsgs (features : FeatureMap) : List String :=
  (if (fget features "pitch_std").lt (.finite 10) then [stablePitchMsg] else []) ++
  (if (fget features "spectral_flux_std").lt (.finite (mkRat 1 20)) then [overSmoothMsg] else []) ++
  (if (fget features "energy_std").lt (.finite (mkRat 1 50)) then [reducedEnergyMsg] else []) ++
  (if (fget features "hnr").gt (.finite 18) then [cleanHarmonicMsg] else [])

/-- `generate_explanation` from `explanation.py`: the triggered rule
messages, or the single fallback message when no rule fires. -/
def generate_explanation (features : FeatureMap) : List String :=
  if ruleMsgs features = [] then [fallbackMsg] else ruleMsgs features

/-! ### `detect_language.py` -/

/-- `detect_language` from `detect_language.py`: a cascade of threshold
tests evaluated in order, with default label `"Telugu"`. -/
def detect_language (features : FeatureMap) : String :=
  let pitch_mean := fget features "pitch_mean"
  let pitch_std := fget features "pitch_std"
  let energy_std := fget features "energy_std"
  let spectral_centroid := fget features "centroid_mean"
  if pitch_mean.gt (.finite 190) && energy_std.gt (.finite (mkRat 1 20)) then "Tamil"
  else if ((PyVal.finite 150).lt pitch_mean && pitch_mean.le (.finite 190)) &&
      spectral_centroid.gt (.finite 2500) then "Hindi"
  else if pitch_std.lt (.finite 12) && energy_std.lt (.finite (mkRat 3 100)) then "English"
  else if spectral_centroid.lt (.finite 2200) && pitch_mean.lt (.finite 160) then "Malayalam"
  else "Telugu"

/-! ### `voice_classifier.py` -/

/-- Modelled from the spec: the `model` attribute of `VoiceClassifier`
is sklearn's `RandomForestClassifier`, an external library object whose
code is not part of this repository.  The spec describes it as an
"ensemble-of-decision-trees binary model" whose `predict_proba` returns
class probabilities.  Each tree is kept abstract as a function from the
encoded feature row to its class-1 probability estimate (a leaf class
fraction, hence in [0, 1] for a trained tree); the ensemble class-1
probability is the average over the non-empty list of trees. -/
structure RandomForest where
  trees : List (List PyVal → ℚ)
  trees_ne : trees ≠ []
  tree_range : ∀ t ∈ trees, ∀ x, 0 ≤ t x ∧ t x ≤ 1

/-- `self.model.predict_proba(X)[0][1]`: the class-1 (AI_GENERATED)
probability of the encoded row, the average of the per-tree estimates. -/
def RandomForest.predict_proba1 (m : RandomForest) (x : List PyVal) : ℚ :=
  (m.trees.map (fun t => t x)).sum / (m.trees.length : ℚ)

/-- The trained `VoiceClassifier` state from `voice_classifier.py`: the
model together with the stored `feature_order` (fixed by `train`; the
claims quantify over trained classifiers, so `feature_order = None` is
out of scope). -/
structure VoiceClassifier where
  model : RandomForest
  feature_order : List String

/-- The dictionary returned by `VoiceClassifier.predict`. -/
structure Prediction where
  classification : String
  confidence : ℚ
deriving DecidableEq

/-- The row encoding `[feature_dict[k] for k in self.feature_order]`:
`none` when some key is missing (Python raises `KeyError` there). -/
def lookups (feature_dict : FeatureMap) : List String → Option (List PyVal)
  | [] => some []
  | k :: ks =>
    match List.lookup k feature_dict, lookups feature_dict ks with
    | some v, some vs => some (v :: vs)
    | _, _ => none

/-- `VoiceClassifier.predict` from `voice_classifier.py`: encode the
features in `feature_order`, take the class-1 probability `ai_prob`, and
return `"AI_GENERATED" if ai_prob >= 0.5 else "HUMAN"` with
`confidence = ai_prob`. -/
def VoiceClassifier.predict (c : VoiceClassifier) (feature_dict : FeatureMap) :
    Option Prediction :=
  match lookups feature_dict c.feature_order with
  | none => none
  | some X =>
    let ai_prob := c.model.predict_proba1 X
    some ⟨if (1/2 : ℚ) ≤ ai_prob then "AI_GENERATED" else "HUMAN", ai_prob⟩

/-- The persisted artifact of `VoiceClassifier.save`:
`{"model": self.model, "feature_order": self.feature_order}`. -/
structure SavedModel where
  model : RandomForest
  feature_order : List String

/-- The filesystem, modelled as a map from paths to persisted artifacts
(joblib serialization/deserialization is assumed faithful). -/
abbrev Store := String → Option SavedModel

/-- `VoiceClassifier.save`: `joblib.dump({"model": ..., "feature_order": ...}, model_path)`. -/
def VoiceClassifier.save (c : VoiceClassifier) (model_path : String) (fs : Store) : Store :=
  fun p => if p = model_path then some ⟨c.model, c.feature_order⟩ else fs p

/-- `VoiceClassifier.load` (static): read the artifact at `model_path`,
build a fresh classifier and overwrite its `model` and `feature_order`
with the stored ones. -/
def VoiceClassifier.load (model_path : String) (fs : Store) : Option VoiceClassifier :=
  (fs model_path).map (fun data => ⟨data.model, data.feature_order⟩)

/-! ### Spec-side rule table for the language heuristic -/

/-- The spec's evaluator for a rule cascade: "an ordered list of
(predicate, result) pairs evaluated in priority order", returning the
first matching label or the default. -/
def firstMatch (rules : List ((FeatureMap → Bool) × String)) (dflt : String)
    (f : FeatureMap) : String :=
  match rules with
  | [] => dflt
  | (p, lbl) :: rest => if p f then lbl else firstMatch rest dflt f

/-- The four threshold tests of `detect_language` as an ordered rule
table, with the conditions written from the spec's description of the
cascade. -/
def languageRules : List ((FeatureMap → Bool) × String) :=
  [ (fun f => (fget f "pitch_mean").gt (.finite 190) &&
        (fget f "energy_std").gt (.finite (mkRat 1 20)), "Tamil"),
    (fun f => ((PyVal.finite 150).lt (fget f "pitch_mean") &&
        (fget f "pitch_mean").le (.finite 190)) &&
        (fget f "centroid_mean").gt (.finite 2500), "Hindi"),
    (fun f => (fget f "pitch_std").lt (.finite 12) &&
        (fget f "energy_std").lt (.finite (mkRat 3 100)), "English"),
    (fun f => (fget f "centroid_mean").lt (.finite 2200) &&
        (fget f "pitch_mean").lt (.finite 160), "Malayalam") ]

/-- The language heuristic as the spec words it: first matching rule of
the cascade, else the default label. -/
def detectLanguageSpec (f : FeatureMap) : String :=
  firstMatch languageRules "Telugu" f

/-! ### Concrete fixtures used by witnesses and counterexamples -/

/-- A trivial analyzer quadruple (every analyzer returns the empty
sub-dictionary), used to instantiate theorems that hold for every
analyzer. -/
def trivialAnalyzers : Analyzers :=
  ⟨fun _ _ => [], fun _ _ => [], fun _ => [], fun _ => []⟩

/-- An analyzer quadruple emitting non-finite values, exercising the
sanitize pass of `extract_features`. -/
def nonFiniteAnalyzers : Analyzers :=
  ⟨fun _ _ => [("pitch_std", .nan)], fun _ _ => [], fun _ => [],
   fun _ => [("hnr", .inf)]⟩

/-- A concrete one-tree forest whose single tree constantly estimates
class-1 probability 1. -/
def constForest : RandomForest where
  trees := [fun _ => 1]
  trees_ne := by simp
  tree_range := by
    intro t ht x
    simp only [List.mem_singleton] at ht
    subst ht
    exact ⟨zero_le_one, le_refl 1⟩

/-- A concrete trained classifier over the single feature `"hnr"`. -/
def constClassifier : VoiceClassifier := ⟨constForest, ["hnr"]⟩

/-! ### Helper lemmas -/

/-- Peak normalization preserves the number of samples. -/
theorem peak_normalize_length (y : List ℚ) : (peak_normalize y).length = y.length := by
  show (if 0 < maxAbs y then y.map (fun s => s / maxAbs y) else y).length = y.length
  split <;> simp

/-- The running maximum of absolute values never drops below its seed. -/
theorem foldl_max_abs_le (y : List ℚ) :
    ∀ init : ℚ, init ≤ y.foldl (fun m s => max m |s|) init := by
  induction y with
  | nil => intro init; simp
  | cons s t ih =>
    intro init
    rw [List.foldl_cons]
    exact le_trans (le_max_left init |s|) (ih (max init |s|))

/-- `np.max(np.abs(y))` is never negative. -/
theorem maxAbs_nonneg (y : List ℚ) : 0 ≤ maxAbs y :=
  foldl_max_abs_le y 0

/-- The short-audio guard of `extract_features`: when
`len(y) < sr * 0.5` the default vector is returned, whatever the
analyzers are. -/
theorem extract_features_short (A : Analyzers) (y : List ℚ) (sr : ℕ)
    (h : 2 * y.length < sr) :
    extract_features A y sr = default_features := by
  have hl : 2 * (load_audio y sr).1.length < (load_audio y sr).2 := by
    simpa [load_audio, peak_normalize_length] using h
  simp only [extract_features]
  rw [if_pos hl]

/-- Every entry surviving the final cleanup pass is finite. -/
theorem sanitize_finite (f : FeatureMap) :
    ∀ kv ∈ sanitize f, kv.2.isFinite = true := by
  intro kv hkv
  unfold sanitize at hkv
  rcases List.mem_map.mp hkv with ⟨a, _, rfl⟩
  by_cases hna : (a.2.isnan || a.2.isinf) = true
  · rw [if_pos hna]
    rfl
  · rw [if_neg hna]
    simp only [PyVal.isFinite]
    simp only [Bool.not_eq_true] at hna
    rw [hna]
    rfl

/-- `features.get(k, 0)` yields 0.0 on a missing key. -/
theorem fget_eq_zero_of_lookup_none (f : FeatureMap) (k : String)
    (h : List.lookup k f = none) : fget f k = PyVal.finite 0 := by
  unfold fget
  rw [h]

/-- A triggered rule message survives into the final explanation list. -/
theorem mem_explanation_of_mem_ruleMsgs (f : FeatureMap) (m : String)
    (hm : m ∈ ruleMsgs f) : m ∈ generate_explanation f := by
  unfold generate_explanation
  split
  · rename_i hempty
    rw [hempty] at hm
    cases hm
  · exact hm

/-- If the pitch rule fires, the message list starts with its message. -/
theorem ruleMsgs_pitch_cons (f : FeatureMap)
    (h : (fget f "pitch_std").lt (.finite 10) = true) :
    ∃ rest, ruleMsgs f = stablePitchMsg :: rest :=
  ⟨((if (fget f "spectral_flux_std").lt (.finite (mkRat 1 20)) then [overSmoothMsg] else []) ++
    (if (fget f "energy_std").lt (.finite (mkRat 1 50)) then [reducedEnergyMsg] else [])) ++
   (if (fget f "hnr").gt (.finite 18) then [cleanHarmonicMsg] else []), by
    unfold ruleMsgs
    rw [if_pos h]
    simp⟩

/-- If the spectral-flux rule fires, its message is emitted. -/
theorem overSmooth_mem_ruleMsgs (f : FeatureMap)
    (h : (fget f "spectral_flux_std").lt (.finite (mkRat 1 20)) = true) :
    overSmoothMsg ∈ ruleMsgs f := by
  unfold ruleMsgs
  rw [if_pos h]
  simp

/-- If the energy rule fires, its message is emitted. -/
theorem reducedEnergy_mem_ruleMsgs (f : FeatureMap)
    (h : (fget f "energy_std").lt (.finite (mkRat 1 50)) = true) :
    reducedEnergyMsg ∈ ruleMsgs f := by
  unfold ruleMsgs
  rw [if_pos h]
  simp

/-- If the pitch rule fires, the explanation starts with its message. -/
theorem explanation_pitch_cons (f : FeatureMap)
    (h : (fget f "pitch_std").lt (.finite 10) = true) :
    ∃ rest, generate_explanation f = stablePitchMsg :: rest := by
  obtain ⟨rest, hrm⟩ := ruleMsgs_pitch_cons f h
  refine ⟨rest, ?_⟩
  unfold generate_explanation
  rw [hrm]
  simp

/-- The encoding of a feature dict succeeds when every key of
`feature_order` is present. -/
theorem lookups_some_of_keys (fd : FeatureMap) :
    ∀ ks : List String, (∀ k ∈ ks, (List.lookup k fd).isSome) →
    ∃ vs, lookups fd ks = some vs := by
  intro ks
  induction ks with
  | nil => intro _; exact ⟨[], rfl⟩
  | cons k t ih =>
    intro h
    obtain ⟨v, hv⟩ := Option.isSome_iff_exists.mp (h k (List.mem_cons_self k t))
    obtain ⟨vs, hvs⟩ := ih (fun a ha => h a (List.mem_cons_of_mem k ha))
    refine ⟨v :: vs, ?_⟩
    unfold lookups
    rw [hv, hvs]

/-- The averaged class-1 probability of a trained forest lies in [0, 1]. -/
theorem predict_proba1_bounds (m : RandomForest) (x : List PyVal) :
    0 ≤ m.predict_proba1 x ∧ m.predict_proba1 x ≤ 1 := by
  have hlen : 0 < ((m.trees.length : ℚ)) := by
    exact_mod_cast List.length_pos.mpr m.trees_ne
  have hsum0 : 0 ≤ (m.trees.map (fun t => t x)).sum := by
    apply List.sum_nonneg
    intro a ha
    rcases List.mem_map.mp ha with ⟨t, ht, rfl⟩
    exact (m.tree_range t ht x).1
  have hsum1 : (m.trees.map (fun t => t x)).sum ≤ ((m.trees.length : ℚ)) := by
    have hb := List.sum_le_card_nsmul (m.trees.map (fun t => t x)) 1 ?_
    · simpa [List.length_map, nsmul_eq_mul] using hb
    · intro a ha
      rcases List.mem_map.mp ha with ⟨t, ht, rfl⟩
      exact (m.tree_range t ht x).2
  unfold RandomForest.predict_proba1
  constructor
  · exact div_nonneg hsum0 (le_of_lt hlen)
  · rw [div_le_one hlen]
    exact hsum1

/-- `extract_features` unfolded over the audio-array branch. -/
theorem extract_features_eq (A : Analyzers) (y : List ℚ) (sr : ℕ) :
    extract_features A y sr =
      if 2 * (peak_normalize y).length < sr then default_features
      else sanitize (dict_update (dict_update (dict_update (dict_update []
        (A.pitch_features (peak_normalize y) sr))
        (A.spectral_features (peak_normalize y) sr))
        (A.temporal_features (peak_normalize y)))
        (A.harmonic_noise_features (peak_normalize y))) := rfl

/-! ### Claim theorems -/

/-- C3 (confirmed): for every analyzer quadruple, every waveform whose
length is below half its sample rate (`len(y) < sr * 0.5`) makes
`extract_features` return exactly `default_features`, the vector whose
12 keys all map to 0.0; the result does not depend on the analyzers, so
none of them is consulted. -/
theorem extract_short_yields_all_zero_defaults
    (A : Analyzers) (y : List ℚ) (sr : ℕ) (h : 2 * y.length < sr) :
    extract_features A y sr = default_features ∧
    default_features.map Prod.fst =
      ["pitch_mean", "pitch_std", "pitch_delta_std", "centroid_mean",
       "centroid_std", "rolloff_std", "bandwidth_std", "spectral_flux_std",
       "energy_mean", "energy_std", "energy_delta_std", "hnr"] ∧
    ∀ kv ∈ default_features, kv.2 = PyVal.finite 0 :=
  ⟨extract_features_short A y sr h, by decide, by decide⟩

/-- Witness for C3 at the one-sample waveform `[1]` and rate 16000. -/
theorem extract_short_yields_all_zero_defaults_witness :
    2 * [(1:ℚ)].length < 16000 ∧
    extract_features trivialAnalyzers [(1:ℚ)] 16000 = default_features :=
  ⟨by decide,
   (extract_short_yields_all_zero_defaults trivialAnalyzers [(1:ℚ)] 16000 (by decide)).1⟩

/-- C1 (amended): a waveform shorter than 0.5 s yields the default
all-zero feature vector, and passing that vector to the explanation
engine yields the three triggered rule messages (stable pitch,
over-smooth spectral transitions, reduced energy variation) — not the
single fallback message, because the zero values satisfy the first three
rule conditions. -/
theorem short_waveform_default_then_rule_messages
    (A : Analyzers) (y : List ℚ) (sr : ℕ) (h : 2 * y.length < sr) :
    extract_features A y sr = default_features ∧
    generate_explanation (extract_features A y sr) =
      [stablePitchMsg, overSmoothMsg, reducedEnergyMsg] := by
  have he := extract_features_short A y sr h
  refine ⟨he, ?_⟩
  rw [he]
  decide

/-- Witness for C1's amended theorem at the waveform `[1]`, rate 16000. -/
theorem short_waveform_default_then_rule_messages_witness :
    2 * [(1:ℚ)].length < 16000 ∧
    (extract_features trivialAnalyzers [(1:ℚ)] 16000 = default_features ∧
     generate_explanation (extract_features trivialAnalyzers [(1:ℚ)] 16000) =
       [stablePitchMsg, overSmoothMsg, reducedEnergyMsg]) :=
  ⟨by decide,
   short_waveform_default_then_rule_messages trivialAnalyzers [(1:ℚ)] 16000 (by decide)⟩

/-- Counterexample to C1 as stated: on the 1-sample waveform `[1]` at
16000 Hz the pipeline does return the default vector, but the
explanation engine applied to that vector does not return the fallback
message: three rules fire on the all-zero vector. -/
theorem short_waveform_fallback_counterexample :
    extract_features trivialAnalyzers [(1:ℚ)] 16000 = default_features ∧
    generate_explanation (extract_features trivialAnalyzers [(1:ℚ)] 16000) ≠
      [fallbackMsg] := by
  have he := extract_features_short trivialAnalyzers [(1:ℚ)] 16000 (by decide)
  refine ⟨he, ?_⟩
  rw [he]
  decide

/-- C4 (confirmed): for every analyzer quadruple and every input, every
value in the mapping returned by `extract_features` is finite — the
default branch is all zeros and the assembly branch passes every entry
through the NaN/Inf cleanup. -/
theorem extract_features_all_values_finite (A : Analyzers) (y : List ℚ) (sr : ℕ) :
    ∀ kv ∈ extract_features A y sr, kv.2.isFinite = true := by
  intro kv hkv
  rw [extract_features_eq] at hkv
  split at hkv
  · have hd : ∀ kv ∈ default_features, kv.2.isFinite = true := by decide
    exact hd kv hkv
  · exact sanitize_finite _ kv hkv

/-- Witness for C4 with analyzers that emit NaN and +inf: the sanitized
`"hnr"` entry is 0.0 and finite. -/
theorem extract_features_all_values_finite_witness :
    ("hnr", PyVal.finite 0) ∈ extract_features nonFiniteAnalyzers [(1:ℚ)] 1 ∧
    ("hnr", PyVal.finite 0).2.isFinite = true :=
  ⟨by decide,
   extract_features_all_values_finite nonFiniteAnalyzers [(1:ℚ)] 1
     ("hnr", PyVal.finite 0) (by decide)⟩

/-- C2 (confirmed): for every trained classifier and every feature
mapping containing all keys of the stored `feature_order`, `predict`
returns a prediction whose confidence lies in [0, 1], whose
classification is `"AI_GENERATED"` iff the confidence is at least 0.5,
and is otherwise `"HUMAN"`. -/
theorem predict_confidence_in_range_and_threshold (c : VoiceClassifier)
    (fd : FeatureMap) (h : ∀ k ∈ c.feature_order, (List.lookup k fd).isSome) :
    ∃ p, c.predict fd = some p ∧
      0 ≤ p.confidence ∧ p.confidence ≤ 1 ∧
      (p.classification = "AI_GENERATED" ↔ (1/2 : ℚ) ≤ p.confidence) ∧
      (p.classification = "AI_GENERATED" ∨ p.classification = "HUMAN") := by
  obtain ⟨X, hX⟩ := lookups_some_of_keys fd c.feature_order h
  refine ⟨⟨if (1/2 : ℚ) ≤ c.model.predict_proba1 X then "AI_GENERATED" else "HUMAN",
           c.model.predict_proba1 X⟩, ?_,
          (predict_proba1_bounds c.model X).1,
          (predict_proba1_bounds c.model X).2, ?_, ?_⟩
  · unfold VoiceClassifier.predict
    rw [hX]
  · by_cases hth : (1/2 : ℚ) ≤ c.model.predict_proba1 X
    · rw [if_pos hth]
      exact ⟨fun _ => hth, fun _ => rfl⟩
    · rw [if_neg hth]
      constructor
      · intro habs
        have hne : ("HUMAN" : String) ≠ "AI_GENERATED" := by decide
        exact absurd habs hne
      · intro hle
        exact absurd hle hth
  · by_cases hth : (1/2 : ℚ) ≤ c.model.predict_proba1 X
    · left
      rw [if_pos hth]
    · right
      rw [if_neg hth]

/-- Witness for C2: a concrete one-feature classifier and mapping on
which `predict` succeeds. -/
theorem predict_confidence_in_range_and_threshold_witness :
    (List.lookup "hnr" ([("hnr", PyVal.finite 0)] : FeatureMap)).isSome = true ∧
    (constClassifier.predict [("hnr", PyVal.finite 0)]).isSome = true := by
  refine ⟨rfl, ?_⟩
  obtain ⟨p, hp, _⟩ := predict_confidence_in_range_and_threshold constClassifier
    [("hnr", PyVal.finite 0)] (by decide)
  rw [hp]
  rfl

/-- C5 (confirmed): loading what `save` persisted yields a classifier
with the same `feature_order` and identical predictions on every feature
mapping (joblib serialization is modelled as a faithful path-indexed
store). -/
theorem save_load_roundtrip (c : VoiceClassifier) (p : String) (fs : Store) :
    ∃ cl, VoiceClassifier.load p (c.save p fs) = some cl ∧
      cl.feature_order = c.feature_order ∧
      ∀ fd, cl.predict fd = c.predict fd := by
  refine ⟨⟨c.model, c.feature_order⟩, ?_, rfl, fun fd => rfl⟩
  unfold VoiceClassifier.load VoiceClassifier.save
  simp

/-- C6 (confirmed): when all four rule conditions are false the
explanation is exactly the one-element fallback list. -/
theorem no_rule_fires_fallback (f : FeatureMap)
    (h1 : (fget f "pitch_std").lt (.finite 10) = false)
    (h2 : (fget f "spectral_flux_std").lt (.finite (mkRat 1 20)) = false)
    (h3 : (fget f "energy_std").lt (.finite (mkRat 1 50)) = false)
    (h4 : (fget f "hnr").gt (.finite 18) = false) :
    generate_explanation f = [fallbackMsg] := by
  unfold generate_explanation ruleMsgs
  rw [h1, h2, h3, h4]
  simp

/-- Witness for C6 at the claim's vector
`{pitch_std: 40, spectral_flux_std: 0.3, energy_std: 0.1, hnr: 5}`. -/
theorem no_rule_fires_fallback_witness :
    generate_explanation
      [("pitch_std", PyVal.finite 40),
       ("spectral_flux_std", PyVal.finite (mkRat 3 10)),
       ("energy_std", PyVal.finite (mkRat 1 10)),
       ("hnr", PyVal.finite 5)] = [fallbackMsg] :=
  no_rule_fires_fallback _ (by decide) (by decide) (by decide) (by decide)

/-- C7 (confirmed): whenever `pitch_std < 10`, the stable-pitch message
is in the explanation and precedes every other emitted message (the pair
is a sublist of the output in that order). -/
theorem pitch_message_present_and_first (f : FeatureMap)
    (h : (fget f "pitch_std").lt (.finite 10) = true) :
    stablePitchMsg ∈ generate_explanation f ∧
    ∀ m ∈ generate_explanation f, m ≠ stablePitchMsg →
      [stablePitchMsg, m].Sublist (generate_explanation f) := by
  obtain ⟨rest, hgen⟩ := explanation_pitch_cons f h
  rw [hgen]
  constructor
  · exact List.mem_cons_self _ _
  · intro m hm hne
    rcases List.mem_cons.mp hm with heq | hmem
    · exact absurd heq hne
    · exact List.Sublist.cons₂ _ (List.singleton_sublist.mpr hmem)

/-- Witness for C7 on the all-zero vector: the stable-pitch message
precedes the over-smooth message. -/
theorem pitch_message_present_and_first_witness :
    (fget default_features "pitch_std").lt (.finite 10) = true ∧
    [stablePitchMsg, overSmoothMsg].Sublist (generate_explanation default_features) :=
  ⟨by decide,
   (pitch_message_present_and_first default_features (by decide)).2
     overSmoothMsg (by decide) (by decide)⟩

/-- C8 (amended): `detect_language` evaluates its threshold tests in
fixed priority order and returns the first matching label, with default
`"Telugu"`; it coincides with the spec's ordered-rule-table evaluator.
(The tests are not mutually exclusive — see the counterexample.) -/
theorem detect_language_is_first_match (f : FeatureMap) :
    detect_language f = detectLanguageSpec f := by
  rfl

/-- Counterexample to C8's mutual-exclusivity: on the all-zero feature
vector both the English-rule condition and the Malayalam-rule condition
hold simultaneously, and `detect_language` returns the earlier match
`"English"`. -/
theorem language_tests_not_mutually_exclusive :
    ((fget default_features "pitch_std").lt (.finite 12) &&
     (fget default_features "energy_std").lt (.finite (mkRat 3 100))) = true ∧
    ((fget default_features "centroid_mean").lt (.finite 2200) &&
     (fget default_features "pitch_mean").lt (.finite 160)) = true ∧
    detect_language default_features = "English" := by
  decide

/-- C9 (confirmed): on every non-empty waveform the peak maximum is
non-negative, the normalizer divides every sample by the maximum when it
is strictly positive and leaves the waveform untouched when it is zero;
`load_audio` and `load_and_preprocess` both apply exactly this step. -/
theorem peak_normalize_total_no_div_by_zero (y : List ℚ) (h : y ≠ []) :
    0 ≤ maxAbs y ∧
    (0 < maxAbs y → peak_normalize y = y.map (fun s => s / maxAbs y)) ∧
    (maxAbs y = 0 → peak_normalize y = y) ∧
    ∀ sr : ℕ, load_audio y sr = (peak_normalize y, sr) ∧
      load_and_preprocess y sr = (peak_normalize y, sr) := by
  refine ⟨maxAbs_nonneg y, ?_, ?_, fun sr => ⟨rfl, rfl⟩⟩
  · intro hpos
    show (if 0 < maxAbs y then y.map (fun s => s / maxAbs y) else y) = _
    rw [if_pos hpos]
  · intro hz
    show (if 0 < maxAbs y then y.map (fun s => s / maxAbs y) else y) = y
    rw [if_neg (by rw [hz]; exact lt_irrefl 0)]

/-- Witness for C9 at the waveform `[0, -2]`, whose peak is 2. -/
theorem peak_normalize_total_no_div_by_zero_witness :
    ([(0:ℚ), -2] ≠ []) ∧
    0 ≤ maxAbs [(0:ℚ), -2] ∧
    peak_normalize [(0:ℚ), -2] =
      [(0:ℚ), -2].map (fun s => s / maxAbs [(0:ℚ), -2]) := by
  have hth := peak_normalize_total_no_div_by_zero [(0:ℚ), -2] (by decide)
  exact ⟨by decide, hth.1, hth.2.1 (by decide)⟩

/-- C10 (confirmed): `generate_explanation` treats any absent key as
0.0 via `features.get(k, 0)`; consequently a mapping missing
`pitch_std` always emits the stable-pitch message, one missing
`spectral_flux_std` always emits the over-smooth message, and one
missing `energy_std` always emits the reduced-energy message. -/
theorem explanation_missing_keys_treated_as_zero (f : FeatureMap) :
    (∀ k, List.lookup k f = none → fget f k = PyVal.finite 0) ∧
    (List.lookup "pitch_std" f = none → stablePitchMsg ∈ generate_explanation f) ∧
    (List.lookup "spectral_flux_std" f = none → overSmoothMsg ∈ generate_explanation f) ∧
    (List.lookup "energy_std" f = none → reducedEnergyMsg ∈ generate_explanation f) := by
  refine ⟨fun k hk => fget_eq_zero_of_lookup_none f k hk, ?_, ?_, ?_⟩
  · intro hnone
    obtain ⟨rest, hgen⟩ := explanation_pitch_cons f
      (by rw [fget_eq_zero_of_lookup_none f _ hnone]; decide)
    rw [hgen]
    exact List.mem_cons_self _ _
  · intro hnone
    exact mem_explanation_of_mem_ruleMsgs f _ (overSmooth_mem_ruleMsgs f
      (by rw [fget_eq_zero_of_lookup_none f _ hnone]; decide))
  · intro hnone
    exact mem_explanation_of_mem_ruleMsgs f _ (reducedEnergy_mem_ruleMsgs f
      (by rw [fget_eq_zero_of_lookup_none f _ hnone]; decide))

/-- Witness for C10 at the empty feature mapping, which misses all keys. -/
theorem explanation_missing_keys_treated_as_zero_witness :
    fget [] "pitch_std" = PyVal.finite 0 ∧
    stablePitchMsg ∈ generate_explanation [] ∧
    overSmoothMsg ∈ generate_explanation [] ∧
    reducedEnergyMsg ∈ generate_explanation [] :=
  ⟨(explanation_missing_keys_treated_as_zero []).1 "pitch_std" rfl,
   (explanation_missing_keys_treated_as_zero []).2.1 rfl,
   (explanation_missing_keys_treated_as_zero []).2.2.1 rfl,
   (explanation_missing_keys_treated_as_zero []).2.2.2 rfl⟩

end VoiceAuth
